import Mathlib

/-!
Verification of the level-evaluation pipeline of `mario-path-checker`
(`src/main.py`): token translation (`TOKEN_MAPPING`, `convert_map_tokens`),
spawn-point location (`find_mario_start`), map generation (`generate_map`),
trace parsing (`parse_coordinates`), outcome classification (`parse_result`)
and batch aggregation (`analyze_levels`).

Python strings are modelled as `List Char`; a grid is a list of rows.
Code that can raise a Python exception (out-of-bounds indexing, `int()` on a
non-numeric string) is modelled with `Except Unit`, where `Except.error ()`
stands for the raised exception.
-/

deriving instance DecidableEq for Except

namespace Mario

/-- A level grid: a list of rows, each row a list of tile characters
(a Python `list` of `str` rows). -/
abbrev Grid := List (List Char)

/-- The `TOKEN_MAPPING` dict of `main.py`: explicit entries only, `none` for a
character absent from the table. -/
def TOKEN_MAPPING (c : Char) : Option Char :=
  match c with
  | '-' => some '-'  -- Sky
  | 'o' => some 'o'  -- Coin
  | 'X' => some 'X'  -- Ground
  | '#' => some '#'  -- Hard Block
  | 'S' => some 'S'  -- Brick
  | 'C' => some 'C'  -- Coin Brick Block
  | 'U' => some 'U'  -- Mushroom Brick Block
  | '?' => some '?'  -- Special Question Block
  | '!' => some 'Q'  -- Coin Question Block
  | '1' => some '1'  -- Invisible 1 up block
  | '2' => some '2'  -- Invisible coin block
  | 'g' => some 'g'  -- Goomba
  | 'G' => some 'G'  -- Winged Goomba
  | 'k' => some 'k'  -- Green Koopa
  | 'K' => some 'K'  -- Winged Green Koopa
  | 'r' => some 'r'  -- Red Koopa
  | 'R' => some 'R'  -- Winged Red Koopa
  | 'y' => some 'y'  -- Spiky
  | 'B' => some 'B'  -- Bullet head
  | 'b' => some 'b'  -- Bullet body
  | '<' => some '<'  -- Top left pipe
  | '>' => some '>'  -- Top right pipe
  | '(' => some 'T'  -- Top left pipe with plant
  | ')' => some 'T'  -- Top right pipe with plant
  | '[' => some '['  -- Left pipe
  | ']' => some ']'  -- Right pipe
  | 'x' => some 'S'  -- Path
  | 'Y' => some 'Y'  -- Black Square
  | 'N' => some '-'  -- N (mapped to Sky)
  | _ => none

/-- `TOKEN_MAPPING.get(char, char)`: table lookup with identity default. -/
def tokenGet (c : Char) : Char := (TOKEN_MAPPING c).getD c

/-- `convert_map_tokens`: the lookup applied independently to every cell. -/
def convert_map_tokens (level_data : Grid) : Grid :=
  level_data.map (fun line => line.map tokenGet)

/-- `len(map_data[0]) if rows > 0 else 0`: the column bound used by
`find_mario_start`, taken from the first row alone. -/
def ncols (g : Grid) : Nat :=
  match g with
  | [] => 0
  | row :: _ => row.length

/-- `map_data[r][c]` with Python semantics for non-negative indices: the cell
on success, `Except.error ()` for the `IndexError` raised out of bounds. -/
def cellE (g : Grid) (r c : Nat) : Except Unit Char :=
  match g[r]? with
  | none => Except.error ()
  | some row =>
    match row[c]? with
    | none => Except.error ()
    | some ch => Except.ok ch

/-- The cell `(r, c)` exists and holds the open-space symbol `-`. -/
def IsOpen (g : Grid) (r c : Nat) : Prop := cellE g r c = Except.ok '-'

instance (g : Grid) (r c : Nat) : Decidable (IsOpen g r c) := by
  unfold IsOpen; infer_instance

/-- The rectangularity invariant of the Grid data model: every row has the
length of the first row. -/
def Rect (g : Grid) : Prop := ∀ row ∈ g, row.length = ncols g

instance (g : Grid) : Decidable (Rect g) := by
  unfold Rect; infer_instance

/-- Inner loop of `find_mario_start`: `for row in range(rows - 1, -1, -1)`,
checking `map_data[row][col] == "-"`. `findRowFromBottom g col n` scans rows
`n-1, n-2, ..., 0`; the access itself may raise. -/
def findRowFromBottom (g : Grid) (col : Nat) : Nat → Except Unit (Option Nat)
  | 0 => Except.ok none
  | r + 1 =>
    match cellE g r col with
    | Except.error e => Except.error e
    | Except.ok ch =>
      if ch = '-' then Except.ok (some r) else findRowFromBottom g col r

/-- Outer loop of `find_mario_start`: `for col in range(cols)`.
`findFromCol g col n` scans columns `col, col+1, ..., col+n-1`. -/
def findFromCol (g : Grid) : Nat → Nat → Except Unit (Option (Nat × Nat))
  | _, 0 => Except.ok none
  | col, n + 1 =>
    match findRowFromBottom g col g.length with
    | Except.error e => Except.error e
    | Except.ok (some row) => Except.ok (some (row, col))
    | Except.ok none => findFromCol g (col + 1) n

/-- `find_mario_start`: bottom-up scan of each column, columns left to right,
returning the first `-` cell, `none` when no cell matches, and the raised
`IndexError` (modelled as `Except.error ()`) when an access is out of bounds. -/
def find_mario_start (map_data : Grid) : Except Unit (Option (Nat × Nat)) :=
  findFromCol map_data 0 (ncols map_data)

/-- `map_data[row] = map_data[row][:col] + "M" + map_data[row][col + 1:]`.
The fallback branch is unreachable in `generate_map`: the row index returned
by `find_mario_start` is always in bounds. -/
def placeMario (g : Grid) (row col : Nat) : Grid :=
  match g[row]? with
  | some line => g.set row (line.take col ++ 'M' :: line.drop (col + 1))
  | none => g

/-- The text written by `generate_map`: `"\n".join(map_data) + '\n'`. -/
def joinNewline (g : Grid) : List Char :=
  List.intercalate ['\n'] g ++ ['\n']

/-- The pure core of `generate_map` (file-system plumbing aside): locate the
spawn on the SOURCE grid, insert `M` when found, then translate tokens, then
serialize. An exception from `find_mario_start` propagates. -/
def generate_map (map_data : Grid) : Except Unit (List Char) :=
  match find_mario_start map_data with
  | Except.error e => Except.error e
  | Except.ok mario_start =>
    let placed : Grid :=
      match mario_start with
      | some (row, col) => placeMario map_data row col
      | none => map_data
    Except.ok (joinNewline (convert_map_tokens placed))

/-- Modelled from the spec (for comparison with `generate_map`): the pipeline
order the spec describes — token translation first, then spawn-point location
on the translated grid, then marker insertion, then serialization. -/
def generate_map_spec_order (map_data : Grid) : Except Unit (List Char) :=
  let translated := convert_map_tokens map_data
  match find_mario_start translated with
  | Except.error e => Except.error e
  | Except.ok (some (row, col)) =>
    Except.ok (joinNewline (placeMario translated row col))
  | Except.ok none => Except.ok (joinNewline translated)

/-- Strip matching characters from both ends of a list, as Python
`str.strip(chars)` does. -/
def stripEnds (p : Char → Bool) (s : List Char) : List Char :=
  ((s.dropWhile p).reverse.dropWhile p).reverse

/-- Python `line.strip()`: surrounding whitespace removed. -/
def stripWS (s : List Char) : List Char := stripEnds Char.isWhitespace s

/-- Python `line.strip("[]")`: surrounding `[` and `]` characters removed. -/
def stripSquare (s : List Char) : List Char :=
  stripEnds (fun c => c == '[' || c == ']') s

/-- Python `output.splitlines()` restricted to `\n` separators: splits on
newlines, with no trailing empty line for a trailing newline and `[]` for the
empty string. -/
def splitlinesAux (cur : List Char) : List Char → List (List Char)
  | [] => [cur.reverse]
  | '\n' :: [] => [cur.reverse]
  | '\n' :: c :: rest => cur.reverse :: splitlinesAux [] (c :: rest)
  | c :: rest => splitlinesAux (c :: cur) rest

/-- `output.splitlines()`. -/
def splitlines : List Char → List (List Char)
  | [] => []
  | c :: rest => splitlinesAux [] (c :: rest)

/-- Python `s.split(", ")`: split on the exact two-character separator,
keeping empty pieces (so `"".split(", ") == [""]`). -/
def splitCommaSpace : List Char → List (List Char)
  | [] => [[]]
  | ',' :: ' ' :: rest => [] :: splitCommaSpace rest
  | c :: rest =>
    match splitCommaSpace rest with
    | [] => [[c]]
    | piece :: pieces => (c :: piece) :: pieces

/-- Value of a nonempty all-digit string, `none` otherwise. -/
def digitsVal (s : List Char) : Option Nat :=
  if s.isEmpty then none
  else if s.all Char.isDigit then
    some (s.foldl (fun a c => a * 10 + (c.toNat - '0'.toNat)) 0)
  else none

/-- Python `int(s)` on ASCII decimal literals: optional surrounding
whitespace, optional sign, then decimal digits; `none` models the raised
`ValueError`. (Underscore digit grouping is not modelled; no input of the
pipeline uses it.) -/
def pyInt (s : List Char) : Option Int :=
  match stripWS s with
  | '-' :: rest => (digitsVal rest).map (fun n => -(n : Int))
  | '+' :: rest => (digitsVal rest).map (fun n => (n : Int))
  | t => (digitsVal t).map (fun n => (n : Int))

/-- The line loop of `parse_coordinates` over the already-split lines.
The flag is `path_start`; `Except.error ()` models the `ValueError` raised by
`int()` on a two-component line with a non-integer component; the collected
path is returned in temporal order. -/
def parseCoordsAux (path_start : Bool) :
    List (List Char) → Except Unit (List (Int × Int))
  | [] => Except.ok []
  | line :: rest =>
    if stripWS line = "Mario Path:".data then parseCoordsAux true rest
    else if path_start then
      if (stripWS line).isEmpty then Except.ok []
      else
        match splitCommaSpace (stripSquare line) with
        | [a, b] =>
          match pyInt a, pyInt b with
          | some x, some y =>
            (parseCoordsAux path_start rest).map (fun path => (x, y) :: path)
          | _, _ => Except.error ()
        | _ => parseCoordsAux path_start rest
    else parseCoordsAux path_start rest

/-- `parse_coordinates`: collect `[x, y]` lines after the `Mario Path:`
marker, stopping at the first blank line. -/
def parse_coordinates (output : List Char) : Except Unit (List (Int × Int)) :=
  parseCoordsAux false (splitlines output)

/-- Python substring membership `pat in s`: `pat` occurs contiguously in `s`. -/
def containsSub (pat : List Char) : List Char → Bool
  | [] => pat.isPrefixOf []
  | c :: rest => pat.isPrefixOf (c :: rest) || containsSub pat rest

/-- `parse_result`: `True` when `"WIN" in output`, else `False` when
`"LOSE" in output`, else `None`. -/
def parse_result (output : List Char) : Option Bool :=
  if containsSub "WIN".data output then some true
  else if containsSub "LOSE".data output then some false
  else none

/-- The aggregation core of `analyze_levels`: the verdict list holds one
`check_level_completion` result per dataset row (CSV ingestion and the
external gateway are outside the modelled core). Returns
`(completed_count / total_count) * 100 if total_count > 0 else 0`. -/
def analyze_levels (verdicts : List Bool) : ℚ :=
  let total_count := verdicts.length
  let completed_count := (verdicts.filter (fun b => b)).length
  if total_count > 0 then
    ((completed_count : ℚ) / (total_count : ℚ)) * 100
  else 0

/-! ### Helper lemmas about cells and the spawn-point scan -/

lemma cellE_ok_iff (g : Grid) (r c : Nat) (ch : Char) :
    cellE g r c = Except.ok ch ↔
      ∃ row, g[r]? = some row ∧ row[c]? = some ch := by
  unfold cellE
  cases hg : g[r]? with
  | none => simp
  | some row =>
    cases hc : row[c]? with
    | none => simp [hc]
    | some ch' => simp [hc]

lemma isOpen_row_lt {g : Grid} {r c : Nat} (h : IsOpen g r c) :
    r < g.length := by
  obtain ⟨row, hg, -⟩ := (cellE_ok_iff g r c '-').mp h
  exact (List.getElem?_eq_some.mp hg).1

lemma isOpen_col_lt {g : Grid} {r c : Nat} (hrect : Rect g)
    (h : IsOpen g r c) : c < ncols g := by
  obtain ⟨row, hg, hr⟩ := (cellE_ok_iff g r c '-').mp h
  obtain ⟨hrow, hget⟩ := List.getElem?_eq_some.mp hg
  have hmem : row ∈ g := hget ▸ List.getElem_mem hrow
  have := (List.getElem?_eq_some.mp hr).1
  rwa [hrect row hmem] at this

lemma rect_cell_total {g : Grid} (hrect : Rect g) {r c : Nat}
    (hr : r < g.length) (hc : c < ncols g) :
    ∃ ch, cellE g r c = Except.ok ch := by
  have hg : g[r]? = some (g.get ⟨r, hr⟩) := List.getElem?_eq_getElem hr
  have hmem : g.get ⟨r, hr⟩ ∈ g := List.getElem_mem hr
  have hlen : c < (g.get ⟨r, hr⟩).length := by
    rw [hrect _ hmem]; exact hc
  have hcc : (g.get ⟨r, hr⟩)[c]? = some ((g.get ⟨r, hr⟩).get ⟨c, hlen⟩) :=
    List.getElem?_eq_getElem hlen
  exact ⟨_, (cellE_ok_iff g r c _).mpr ⟨_, hg, hcc⟩⟩

lemma findRowFromBottom_ok_some {g : Grid} {col : Nat} :
    ∀ {n r : Nat}, findRowFromBottom g col n = Except.ok (some r) →
      IsOpen g r col ∧ r < n ∧
        ∀ r', r < r' → r' < n → ¬ IsOpen g r' col := by
  intro n
  induction n with
  | zero => intro r h; simp [findRowFromBottom] at h
  | succ m ih =>
    intro r h
    unfold findRowFromBottom at h
    split at h
    · cases h
    next ch hc =>
      split at h
      case isTrue hch =>
        obtain rfl : m = r := by cases h; rfl
        refine ⟨by rw [IsOpen, hc, hch], Nat.lt_succ_self m, ?_⟩
        intro r' h1 h2
        omega
      case isFalse hch =>
        obtain ⟨h1, h2, h3⟩ := ih h
        refine ⟨h1, Nat.lt_succ_of_lt h2, ?_⟩
        intro r' hr1 hr2
        rcases Nat.lt_succ_iff_lt_or_eq.mp hr2 with hlt | rfl
        · exact h3 r' hr1 hlt
        · intro hopen
          rw [IsOpen, hc] at hopen
          exact hch (by cases hopen; rfl)

lemma findRowFromBottom_ok_none {g : Grid} {col : Nat} :
    ∀ {n : Nat}, findRowFromBottom g col n = Except.ok none →
      ∀ r, r < n → ¬ IsOpen g r col := by
  intro n
  induction n with
  | zero => intro _ r h; exact absurd h (Nat.not_lt_zero r)
  | succ m ih =>
    intro h r hr
    unfold findRowFromBottom at h
    split at h
    · cases h
    next ch hc =>
      split at h
      case isTrue hch => cases h
      case isFalse hch =>
        rcases Nat.lt_succ_iff_lt_or_eq.mp hr with hlt | rfl
        · exact ih h r hlt
        · intro hopen
          rw [IsOpen, hc] at hopen
          exact hch (by cases hopen; rfl)

lemma findRowFromBottom_total {g : Grid} {col : Nat} :
    ∀ {n : Nat}, (∀ r, r < n → ∃ ch, cellE g r col = Except.ok ch) →
      ∃ res, findRowFromBottom g col n = Except.ok res := by
  intro n
  induction n with
  | zero => intro _; exact ⟨none, rfl⟩
  | succ m ih =>
    intro h
    obtain ⟨ch, hch⟩ := h m (Nat.lt_succ_self m)
    unfold findRowFromBottom
    rw [hch]
    by_cases hc : ch = '-'
    · exact ⟨some m, by simp [hc]⟩
    · have hrec := ih (fun r hr => h r (Nat.lt_succ_of_lt hr))
      simpa [hc] using hrec

lemma findFromCol_ok_some {g : Grid} :
    ∀ {n col r c : Nat}, findFromCol g col n = Except.ok (some (r, c)) →
      col ≤ c ∧ c < col + n ∧
        findRowFromBottom g c g.length = Except.ok (some r) ∧
        ∀ c', col ≤ c' → c' < c →
          findRowFromBottom g c' g.length = Except.ok none := by
  intro n
  induction n with
  | zero => intro col r c h; simp [findFromCol] at h
  | succ m ih =>
    intro col r c h
    unfold findFromCol at h
    split at h
    · cases h
    next row hf =>
      cases h
      refine ⟨Nat.le_refl _, by omega, hf, ?_⟩
      intro c' h1 h2
      omega
    next hf =>
      obtain ⟨h1, h2, h3, h4⟩ := ih h
      refine ⟨Nat.le_of_succ_le h1, by omega, h3, ?_⟩
      intro c' hc1 hc2
      rcases Nat.lt_or_ge c' (col + 1) with hlt | hge
      · obtain rfl : c' = col := Nat.le_antisymm (Nat.lt_succ_iff.mp hlt) hc1
        exact hf
      · exact h4 c' hge hc2

lemma findFromCol_ok_none {g : Grid} :
    ∀ {n col : Nat}, findFromCol g col n = Except.ok none →
      ∀ c', col ≤ c' → c' < col + n →
        findRowFromBottom g c' g.length = Except.ok none := by
  intro n
  induction n with
  | zero => intro col _ c' h1 h2; omega
  | succ m ih =>
    intro col h c' h1 h2
    unfold findFromCol at h
    cases hf : findRowFromBottom g col g.length with
    | error e => rw [hf] at h; cases h
    | ok res =>
      rw [hf] at h
      cases res with
      | some row => cases h
      | none =>
        rcases Nat.lt_or_ge c' (col + 1) with hlt | hge
        · obtain rfl : c' = col := Nat.le_antisymm (Nat.lt_succ_iff.mp hlt) h1
          exact hf
        · exact ih h c' hge (by omega)

lemma findFromCol_total {g : Grid} :
    ∀ {n col : Nat},
      (∀ c', col ≤ c' → c' < col + n →
        ∃ res, findRowFromBottom g c' g.length = Except.ok res) →
      ∃ res, findFromCol g col n = Except.ok res := by
  intro n
  induction n with
  | zero => intro _ _; exact ⟨none, rfl⟩
  | succ m ih =>
    intro col h
    obtain ⟨res, hres⟩ := h col (Nat.le_refl col) (by omega)
    unfold findFromCol
    rw [hres]
    cases res with
    | some row => exact ⟨some (row, col), rfl⟩
    | none => exact ih (fun c' h1 h2 => h c' (Nat.le_of_succ_le h1) (by omega))

lemma find_mario_start_total {g : Grid} (hrect : Rect g) :
    ∃ res, find_mario_start g = Except.ok res := by
  apply findFromCol_total
  intro c' h1 h2
  apply findRowFromBottom_total
  intro r hr
  exact rect_cell_total hrect hr (by omega)

lemma find_mario_start_coord {g : Grid} {r c : Nat}
    (h : find_mario_start g = Except.ok (some (r, c))) :
    IsOpen g r c ∧ c < ncols g := by
  obtain ⟨-, h2, h3, -⟩ := findFromCol_ok_some h
  exact ⟨(findRowFromBottom_ok_some h3).1, by omega⟩

lemma find_mario_start_spec {g : Grid} (hrect : Rect g)
    (hopen : ∃ r c, IsOpen g r c) :
    ∃ r c, find_mario_start g = Except.ok (some (r, c)) ∧ IsOpen g r c ∧
      (∀ r' c', IsOpen g r' c' → c ≤ c') ∧
      (∀ r', IsOpen g r' c → r' ≤ r) := by
  obtain ⟨r0, c0, h0⟩ := hopen
  obtain ⟨res, hres⟩ := find_mario_start_total hrect
  cases res with
  | none =>
    exfalso
    have hfrb := findFromCol_ok_none hres c0 (Nat.zero_le c0)
      (by simpa using isOpen_col_lt hrect h0)
    exact findRowFromBottom_ok_none hfrb r0 (isOpen_row_lt h0) h0
  | some rc =>
    obtain ⟨r, c⟩ := rc
    obtain ⟨-, -, hfrb, hnone⟩ := findFromCol_ok_some hres
    obtain ⟨hopen_rc, -, hmax⟩ := findRowFromBottom_ok_some hfrb
    refine ⟨r, c, hres, hopen_rc, ?_, ?_⟩
    · intro r' c' h'
      by_contra hlt
      exact findRowFromBottom_ok_none
        (hnone c' (Nat.zero_le c') (by omega)) r' (isOpen_row_lt h') h'
    · intro r' h'
      by_contra hlt
      exact hmax r' (by omega) (isOpen_row_lt h') h'

lemma find_mario_start_none {g : Grid} (hrect : Rect g)
    (hsolid : ∀ r c, ¬ IsOpen g r c) :
    find_mario_start g = Except.ok none := by
  obtain ⟨res, hres⟩ := find_mario_start_total hrect
  cases res with
  | none => exact hres
  | some rc =>
    obtain ⟨r, c⟩ := rc
    exact absurd (find_mario_start_coord hres).1 (hsolid r c)

lemma noOpen_of_bounded {g : Grid} (hrect : Rect g)
    (h : ∀ r < g.length, ∀ c < ncols g, ¬ IsOpen g r c) :
    ∀ r c, ¬ IsOpen g r c :=
  fun r c hopen =>
    h r (isOpen_row_lt hopen) c (isOpen_col_lt hrect hopen) hopen

lemma cellE_convert (g : Grid) (r c : Nat) :
    cellE (convert_map_tokens g) r c = (cellE g r c).map tokenGet := by
  unfold cellE convert_map_tokens
  rw [List.getElem?_map]
  cases g[r]? with
  | none => rfl
  | some row =>
    simp only [Option.map_some']
    rw [List.getElem?_map]
    cases row[c]? <;> rfl

lemma containsSub_iff (pat : List Char) :
    ∀ s : List Char, containsSub pat s = true ↔ pat <:+: s := by
  intro s
  induction s with
  | nil =>
    simp [containsSub, List.isPrefixOf_iff_prefix, List.prefix_nil,
      List.infix_nil]
  | cons c rest ih =>
    simp [containsSub, List.isPrefixOf_iff_prefix, ih, List.infix_cons_iff]

lemma count_true_eq_filter_length (v : List Bool) :
    v.count true = (v.filter (fun b => b)).length := by
  induction v with
  | nil => rfl
  | cons b t ih => cases b <;> simp [List.count_cons, List.filter, ih]

/-! ### The claims -/

/-- C3: for every (rectangular) grid with at least one open-space cell `-`,
`find_mario_start` returns the coordinate whose column is the smallest column
holding an open cell and whose row is the largest open row in that column;
in particular `["X-", "XX"]` yields `(0, 1)`. -/
theorem claim_C3 :
    (∀ g : Grid, Rect g → (∃ r c, IsOpen g r c) →
      ∃ r c, find_mario_start g = Except.ok (some (r, c)) ∧ IsOpen g r c ∧
        (∀ r' c', IsOpen g r' c' → c ≤ c') ∧
        (∀ r', IsOpen g r' c → r' ≤ r)) ∧
    find_mario_start [['X', '-'], ['X', 'X']] = Except.ok (some (0, 1)) :=
  ⟨fun _ hrect hopen => find_mario_start_spec hrect hopen, by decide⟩

/-- Witness for C3 at the grid `["X-", "XX"]`. -/
theorem claim_C3_witness :
    ∃ r c,
      find_mario_start [['X', '-'], ['X', 'X']] = Except.ok (some (r, c)) ∧
      IsOpen [['X', '-'], ['X', 'X']] r c ∧
      (∀ r' c', IsOpen [['X', '-'], ['X', 'X']] r' c' → c ≤ c') ∧
      (∀ r', IsOpen [['X', '-'], ['X', 'X']] r' c → r' ≤ r) :=
  claim_C3.1 _ (by decide) ⟨0, 1, by decide⟩

/-- C8: a (rectangular) grid with no open-space cell yields the explicit
no-placement signal `none`, never a coordinate; an empty grid and a grid of
empty rows do so as well. -/
theorem claim_C8 :
    (∀ g : Grid, Rect g → (∀ r c, ¬ IsOpen g r c) →
      find_mario_start g = Except.ok none) ∧
    find_mario_start ([] : Grid) = Except.ok none ∧
    find_mario_start [[], []] = Except.ok none :=
  ⟨fun _ hrect hsolid => find_mario_start_none hrect hsolid,
   by decide, by decide⟩

/-- Witness for C8 at an all-solid 2×2 grid. -/
theorem claim_C8_witness :
    find_mario_start [['X', 'X'], ['X', 'X']] = Except.ok none :=
  claim_C8.1 _ (by decide) (noOpen_of_bounded (by decide) (by decide))

/-- C10: `find_mario_start` bounds its column scan by the first row's length;
on every rectangular grid it is total (no out-of-bounds access) and returns
either an open coordinate with column below that bound or the no-placement
signal, while on a ragged grid with a row shorter than the first an
out-of-bounds access (the error case) is possible. -/
theorem claim_C10 :
    (∀ g : Grid, Rect g → ∃ res, find_mario_start g = Except.ok res) ∧
    (∀ (g : Grid) (r c : Nat),
      find_mario_start g = Except.ok (some (r, c)) →
      IsOpen g r c ∧ c < ncols g) ∧
    find_mario_start [['X', 'X'], ['X']] = Except.error () :=
  ⟨fun _ hrect => find_mario_start_total hrect,
   fun _ _ _ h => find_mario_start_coord h, by decide⟩

/-- Witness for C10 at the grid `["X-", "XX"]`. -/
theorem claim_C10_witness :
    (∃ res, find_mario_start [['X', '-'], ['X', 'X']] = Except.ok res) ∧
    (IsOpen [['X', '-'], ['X', 'X']] 0 1 ∧
      1 < ncols [['X', '-'], ['X', 'X']]) :=
  ⟨claim_C10.1 _ (by decide), claim_C10.2.1 _ 0 1 (by decide)⟩

/-- C7: token translation preserves the row count and every row's length. -/
theorem claim_C7 (g : Grid) :
    (convert_map_tokens g).length = g.length ∧
    ∀ i : Nat, ((convert_map_tokens g)[i]?).map List.length =
      (g[i]?).map List.length := by
  refine ⟨by simp [convert_map_tokens], fun i => ?_⟩
  unfold convert_map_tokens
  rw [List.getElem?_map]
  cases g[i]? <;> simp

/-- C6: the token table maps `!`, `(`, `)`, `x`, `N` to `Q`, `T`, `T`, `S`,
`-` respectively, every other tabled character to itself, characters outside
the table verbatim, and `convert_map_tokens` applies it cell by cell. -/
theorem claim_C6 :
    tokenGet '!' = 'Q' ∧ tokenGet '(' = 'T' ∧ tokenGet ')' = 'T' ∧
    tokenGet 'x' = 'S' ∧ tokenGet 'N' = '-' ∧
    (∀ c ∈ "-oX#SCU?12gGkKrRyBb<>[]Y".data, tokenGet c = c) ∧
    (∀ c, TOKEN_MAPPING c = none → tokenGet c = c) ∧
    (∀ (g : Grid) (r c : Nat),
      cellE (convert_map_tokens g) r c = (cellE g r c).map tokenGet) := by
  refine ⟨rfl, rfl, rfl, rfl, rfl, by decide, ?_, ?_⟩
  · intro c h; simp [tokenGet, h]
  · exact cellE_convert

/-- Witness for C6: an identity-domain character and an unmapped character. -/
theorem claim_C6_witness : tokenGet 'o' = 'o' ∧ tokenGet 'Z' = 'Z' := by
  obtain ⟨-, -, -, -, -, hid, hdef, -⟩ := claim_C6
  exact ⟨hid 'o' (by decide), hdef 'Z' rfl⟩

/-- C4: `parse_result` returns `some true` when `WIN` occurs in the output,
else `some false` when `LOSE` occurs, else `none`; `WIN` is checked first, so
it takes precedence when both occur. -/
theorem claim_C4 (s : List Char) :
    ("WIN".data <:+: s → parse_result s = some true) ∧
    (¬ ("WIN".data <:+: s) → "LOSE".data <:+: s →
      parse_result s = some false) ∧
    (¬ ("WIN".data <:+: s) → ¬ ("LOSE".data <:+: s) →
      parse_result s = none) := by
  refine ⟨fun h => ?_, fun h1 h2 => ?_, fun h1 h2 => ?_⟩
  · simp [parse_result, (containsSub_iff _ s).mpr h]
  · have hw : containsSub "WIN".data s = false := by
      rw [← Bool.not_eq_true]
      exact fun hh => h1 ((containsSub_iff _ s).mp hh)
    simp [parse_result, hw, (containsSub_iff _ s).mpr h2]
  · have hw : containsSub "WIN".data s = false := by
      rw [← Bool.not_eq_true]
      exact fun hh => h1 ((containsSub_iff _ s).mp hh)
    have hl : containsSub "LOSE".data s = false := by
      rw [← Bool.not_eq_true]
      exact fun hh => h2 ((containsSub_iff _ s).mp hh)
    simp [parse_result, hw, hl]

/-- Witness for C4: both markers present classifies as Completed, and a
LOSE-only output classifies as Failed. -/
theorem claim_C4_witness :
    parse_result "WINLOSE".data = some true ∧
    parse_result "xx LOSE".data = some false :=
  ⟨(claim_C4 _).1 (by decide), (claim_C4 _).2.1 (by decide) (by decide)⟩

/-- C5: an output with the `Mario Path:` marker line, the lines `[3, 4]` and
`[5, 4]`, a blank line (collection stops there, and starts only after the
marker), and `WIN` elsewhere parses to the path `[(3,4), (5,4)]` and
classifies as Completed. -/
theorem claim_C5 :
    parse_coordinates
        "[9, 9]\nMario Path:\n[3, 4]\n[5, 4]\n\n[7, 7]\nWIN\n".data =
      Except.ok [(3, 4), (5, 4)] ∧
    parse_result "[9, 9]\nMario Path:\n[3, 4]\n[5, 4]\n\n[7, 7]\nWIN\n".data =
      some true :=
  ⟨by decide, by decide⟩

/-- C9: the completion percentage is `completed / total * 100` for a nonempty
verdict list, `0` for an empty one (no division fault), and
`[true, false, true, true]` yields 75. -/
theorem claim_C9 :
    analyze_levels [true, false, true, true] = 75 ∧
    analyze_levels [] = 0 ∧
    ∀ verdicts : List Bool, verdicts ≠ [] →
      analyze_levels verdicts =
        ((verdicts.count true : ℚ) / (verdicts.length : ℚ)) * 100 := by
  refine ⟨by norm_num [analyze_levels], by norm_num [analyze_levels], ?_⟩
  intro v hv
  unfold analyze_levels
  rw [if_pos (List.length_pos.mpr hv), count_true_eq_filter_length]

/-- Witness for C9 at the singleton verdict list `[true]`. -/
theorem claim_C9_witness :
    analyze_levels [true] =
      ((List.count true [true] : ℚ) / (([true] : List Bool).length : ℚ))
        * 100 := by
  obtain ⟨-, -, h⟩ := claim_C9
  exact h [true] (by decide)

/-- C1 fails on the code: on the one-cell grid `["N"]` the pipeline locates
the spawn before translation, finds no `-` cell, inserts no marker and writes
`-` followed by a newline, while the spec's order (translate first) would
place the marker and write `M` followed by a newline. -/
theorem claim_C1_counterexample :
    generate_map [['N']] = Except.ok ['-', '\n'] ∧
    generate_map_spec_order [['N']] = Except.ok ['M', '\n'] ∧
    generate_map [['N']] ≠ generate_map_spec_order [['N']] :=
  ⟨by decide, by decide, by decide⟩

/-- C1 (amended): the pipeline locates the spawn point on the SOURCE grid
first, then inserts the marker, then translates tokens, then serializes; a
source grid with no `-` cell (even one holding `N`) gets no marker, and when
the locator returns a coordinate the marker is inserted before translation. -/
theorem claim_C1 :
    (∀ g : Grid, Rect g → (∀ r c, ¬ IsOpen g r c) →
      generate_map g = Except.ok (joinNewline (convert_map_tokens g))) ∧
    (∀ (g : Grid) (r c : Nat),
      find_mario_start g = Except.ok (some (r, c)) →
      generate_map g =
        Except.ok (joinNewline (convert_map_tokens (placeMario g r c)))) := by
  constructor
  · intro g hrect hsolid
    unfold generate_map
    rw [find_mario_start_none hrect hsolid]
  · intro g r c h
    unfold generate_map
    rw [h]

/-- Witness for C1 at the grids `["N"]` (no marker) and `["-"]` (marker). -/
theorem claim_C1_witness :
    generate_map [['N']] =
      Except.ok (joinNewline (convert_map_tokens [['N']])) ∧
    generate_map [['-']] =
      Except.ok (joinNewline (convert_map_tokens (placeMario [['-']] 0 0))) := by
  obtain ⟨h1, h2⟩ := claim_C1
  exact ⟨h1 [['N']] (by decide) (noOpen_of_bounded (by decide) (by decide)),
    h2 [['-']] 0 0 (by decide)⟩

/-- C2 fails on the code: after the marker, the line `[a, b]` has exactly two
comma-space components, so `int()` is applied and raises (`Except.error ()`);
the parse aborts instead of skipping the line and returning `[(5, 4)]`. -/
theorem claim_C2_counterexample :
    parse_coordinates "Mario Path:\n[a, b]\n[5, 4]\n".data =
      Except.error () ∧
    parse_coordinates "Mario Path:\n[a, b]\n[5, 4]\n".data ≠
      Except.ok [(5, 4)] :=
  ⟨by decide, by decide⟩

/-- C2 (amended): while collecting, a non-blank non-marker line whose
bracket-stripped content does not split into exactly two comma-space
components is skipped without aborting collection, but a line that does split
into two components one of which is not an integer literal raises, aborting
the parse; lines such as `[3]` are skipped and subsequent valid lines are
still collected. -/
theorem claim_C2 :
    (∀ (line : List Char) (rest : List (List Char)),
      stripWS line ≠ "Mario Path:".data → stripWS line ≠ [] →
      (splitCommaSpace (stripSquare line)).length ≠ 2 →
      parseCoordsAux true (line :: rest) = parseCoordsAux true rest) ∧
    (∀ (line : List Char) (rest : List (List Char)) (a b : List Char),
      stripWS line ≠ "Mario Path:".data → stripWS line ≠ [] →
      splitCommaSpace (stripSquare line) = [a, b] →
      pyInt a = none ∨ pyInt b = none →
      parseCoordsAux true (line :: rest) = Except.error ()) ∧
    parse_coordinates "Mario Path:\n[3]\n[5, 4]\n[6, 7]\n".data =
      Except.ok [(5, 4), (6, 7)] := by
  refine ⟨?_, ?_, by decide⟩
  · intro line rest h1 h2 h3
    rcases hs : splitCommaSpace (stripSquare line) with _ | ⟨a, _ | ⟨b, _ | ⟨c, t⟩⟩⟩
    · simp [parseCoordsAux, h1, h2, hs]
    · simp [parseCoordsAux, h1, h2, hs]
    · rw [hs] at h3; simp at h3
    · simp [parseCoordsAux, h1, h2, hs]
  · intro line rest a b h1 h2 hs h4
    rcases h4 with ha | hb
    · rcases hpb : pyInt b with _ | y <;>
        simp [parseCoordsAux, h1, h2, hs, ha, hpb]
    · rcases hpa : pyInt a with _ | x <;>
        simp [parseCoordsAux, h1, h2, hs, hb, hpa]

/-- Witness for C2: the `[3]` line is skipped, the `[a, b]` line raises. -/
theorem claim_C2_witness :
    parseCoordsAux true ["[3]".data] =
      parseCoordsAux true ([] : List (List Char)) ∧
    parseCoordsAux true ["[a, b]".data] = Except.error () := by
  obtain ⟨hskip, hraise, -⟩ := claim_C2
  exact ⟨hskip "[3]".data [] (by decide) (by decide) (by decide),
    hraise "[a, b]".data [] "a".data "b".data (by decide) (by decide)
      (by decide) (Or.inl (by decide))⟩

end Mario
